import Mathlib

/-!
Verification of `scorer/simulacra_aesthetic_models/simulacra_compute_embeddings.py`.

The script precomputes CLIP embeddings for the Simulacra Aesthetic Captions
dataset: it reads per-image mean ratings from a SQLite database
(`SimulacraDataset.__init__`), loads and preprocesses images
(`SimulacraDataset.__getitem__`), batches them through a frozen encoder
(`main`'s loader loop), concatenates the per-batch results and serializes
the bundle with `torch.save`.

This file shallowly embeds the script: SQLite rows become Lean structures,
the join/aggregate query becomes an explicit nested-loop join with grouping,
tensors become Lean lists, rating values become rationals, and fallible
operations (image loads, `torch.cat` on an empty list, database opening)
return `Except`/`Option` values.
-/

namespace Simulacra

/-! ## Relational store  (SimulacraDataset.__init__, lines 28-33)

The query executed against the SQLite database is

  SELECT generations.id, images.idx, paths.path, AVG(ratings.rating)
  FROM images
  JOIN generations ON images.gid=generations.id
  JOIN ratings ON images.id=ratings.iid
  JOIN paths ON images.id=paths.iid
  GROUP BY images.id

We model the four relations as lists of rows.  Rating values are modelled
as rationals (SQLite stores numbers; `AVG` performs exact arithmetic on
the modelled values). -/

/-- A row of the `generations` table (only the joined column matters). -/
structure GenerationRow where
  id : Int
deriving DecidableEq

/-- A row of the `images` table: primary key `id`, foreign key `gid` into
`generations`, and the selected column `idx`. -/
structure ImageRow where
  id : Int
  gid : Int
  idx : Int
deriving DecidableEq

/-- A row of the `ratings` table: foreign key `iid` into `images` and the
aggregated column `rating`. -/
structure RatingRow where
  iid : Int
  rating : ℚ
deriving DecidableEq

/-- A row of the `paths` table: foreign key `iid` into `images` and the
selected column `path`. -/
structure PathRow where
  iid : Int
  path : String
deriving DecidableEq

/-- The four relations referenced by the query. -/
structure Database where
  generations : List GenerationRow
  images : List ImageRow
  ratings : List RatingRow
  paths : List PathRow
deriving DecidableEq

/-- One row of the join `images ⋈ generations ⋈ ratings ⋈ paths`. -/
structure JoinRow where
  image : ImageRow
  gen : GenerationRow
  ratingRow : RatingRow
  pathRow : PathRow
deriving DecidableEq

/-- The `generations` rows matching image `i` (`ON images.gid=generations.id`). -/
def imageGens (db : Database) (i : ImageRow) : List GenerationRow :=
  db.generations.filter fun g => decide (i.gid = g.id)

/-- The `ratings` rows matching image `i` (`ON images.id=ratings.iid`). -/
def imageRatings (db : Database) (i : ImageRow) : List RatingRow :=
  db.ratings.filter fun r => decide (i.id = r.iid)

/-- The `paths` rows matching image `i` (`ON images.id=paths.iid`). -/
def imagePaths (db : Database) (i : ImageRow) : List PathRow :=
  db.paths.filter fun p => decide (i.id = p.iid)

/-- All join rows contributed by image `i`: the nested-loop product of the
matching `generations`, `ratings` and `paths` rows. -/
def imageJoinRows (db : Database) (i : ImageRow) : List JoinRow :=
  (imageGens db i).flatMap fun g =>
    (imageRatings db i).flatMap fun r =>
      (imagePaths db i).map fun p => ⟨i, g, r, p⟩

/-- The full (pre-grouping) join result, iterating `images` in table order. -/
def joinedRows (db : Database) : List JoinRow :=
  db.images.flatMap (imageJoinRows db)

/-- First-occurrence deduplication of a key list: the distinct `GROUP BY`
keys, each listed at its first appearance. -/
def dedupFirst : List Int → List Int
  | [] => []
  | a :: l => a :: (dedupFirst l).filter fun b => decide (b ≠ a)

/-- The distinct values of the grouping key `images.id` occurring in the
join result. -/
def queryKeys (db : Database) : List Int :=
  dedupFirst ((joinedRows db).map fun jr => jr.image.id)

/-- The join rows belonging to the group with key `k`. -/
def groupRows (db : Database) (k : Int) : List JoinRow :=
  (joinedRows db).filter fun jr => decide (jr.image.id = k)

/-- SQL `AVG` over the (nonempty, by construction of the groups) list of
aggregated values: sum divided by count. -/
def sqlAvg (l : List ℚ) : ℚ :=
  l.sum / l.length

/-- One row of the query result as the Python code consumes it:
`gid, idx, filename, rating = self.ratings[key]`. -/
structure RatingRecord where
  gid : Int
  idx : Int
  path : String
  rating : ℚ
deriving DecidableEq

/-- The grouped query result: one record per distinct `images.id` key, with
the non-aggregated columns taken from a representative row of the group
(we pick the first row; SQLite picks an arbitrary one) and `AVG` over the
group's `ratings.rating` values.  This list is exactly `self.ratings` of
`SimulacraDataset`. -/
def queryResult (db : Database) : List RatingRecord :=
  (queryKeys db).map fun k =>
    { gid := ((groupRows db k).map fun jr => jr.gen.id).headD 0
      idx := ((groupRows db k).map fun jr => jr.image.idx).headD 0
      path := ((groupRows db k).map fun jr => jr.pathRow.path).headD ""
      rating := sqlAvg ((groupRows db k).map fun jr => jr.ratingRow.rating) }

/-- The arithmetic mean of a list of rating rows (the quantity the spec
says `mean_rating` must equal). -/
def ratingMean (rs : List RatingRow) : ℚ :=
  (rs.map RatingRow.rating).sum / rs.length

/-! ## Database file and connection  (sqlite3.connect, line 30)

`sqlite3.connect(db)` uses SQLite's default open mode (read-write-create):
when no database exists at the given location it silently creates an empty
one, and the subsequent `SELECT` then fails with
`sqlite3.OperationalError: no such table: images`.  Opening fails outright
(`unable to open database file`) only when the location exists but cannot
be opened as a database container.  We model a database file as the set of
tables it defines, and the filesystem entry at the `--db` location as
absent, unopenable, or a database file. -/

/-- A SQLite database file: each expected table is present or absent. -/
structure DatabaseFile where
  generationsTable : Option (List GenerationRow)
  imagesTable : Option (List ImageRow)
  ratingsTable : Option (List RatingRow)
  pathsTable : Option (List PathRow)

/-- The freshly-created empty database: no tables at all. -/
def emptyDatabaseFile : DatabaseFile :=
  ⟨none, none, none, none⟩

/-- Errors surfaced by the Rating Store Reader, named as in the spec:
`storeUnavailable` for `sqlite3.OperationalError: unable to open database
file`, `schemaError` for `no such table: ...`. -/
inductive ReaderError
  | storeUnavailable
  | schemaError (missingTable : String)
deriving DecidableEq

/-- What the filesystem holds at the `--db` location. -/
inductive DbFsEntry
  | absent
  | unopenable
  | file (f : DatabaseFile)

/-- `sqlite3.connect(db)`: default mode is read-write-create, so an absent
location is created as an empty database rather than reported as an
error; only an unopenable location fails. -/
def sqlite3_connect (dbfs : String → DbFsEntry) (loc : String) :
    Except ReaderError DatabaseFile :=
  match dbfs loc with
  | .file f => .ok f
  | .absent => .ok emptyDatabaseFile
  | .unopenable => .error .storeUnavailable

/-- Executing the join/aggregate query against an opened database file:
fails with `no such table` (in `FROM`/`JOIN` order) when a referenced
table is missing, otherwise returns the grouped query result. -/
def executeQuery (f : DatabaseFile) : Except ReaderError (List RatingRecord) :=
  match f.imagesTable with
  | none => .error (.schemaError "images")
  | some images =>
    match f.generationsTable with
    | none => .error (.schemaError "generations")
    | some gens =>
      match f.ratingsTable with
      | none => .error (.schemaError "ratings")
      | some ratings =>
        match f.pathsTable with
        | none => .error (.schemaError "paths")
        | some paths => .ok (queryResult ⟨gens, images, ratings, paths⟩)

/-- The Rating Store Reader (`SimulacraDataset.__init__`): connect, then
run the query, collecting the rows into `self.ratings`. -/
def readerRecords (dbfs : String → DbFsEntry) (loc : String) :
    Except ReaderError (List RatingRecord) :=
  match sqlite3_connect dbfs loc with
  | .error e => .error e
  | .ok f => executeQuery f

/-! ## Image loading and the batched pipeline  (lines 35-43 and 84-99)

`SimulacraDataset.__getitem__` opens `images_dir / filename`, converts to
RGB, applies the transform when one is set, and pairs the image with
`torch.tensor(rating)`.  `Image.open` raises (missing file, corrupt data,
unsupported format) when the image cannot be loaded; we model the disk as
a map from paths to `Option Img` where `none` means the load raises.

`DataLoader(dataset, batch_size, num_workers=...)` with the default
`shuffle=False`/`drop_last=False` yields the samples in index order,
grouped into consecutive batches of `batch_size` (the last batch may be
shorter); the default collate stacks the images and ratings of a batch
into two parallel lists.  The loop encodes each image batch
(`clip_model.encode_image`), moves it to host memory (modelled as the
identity) and appends it; finally `torch.cat` concatenates the per-batch
results — and raises a `RuntimeError` when given an empty list of
tensors — and `torch.save` writes the bundle. -/

/-- The error raised by `Image.open`/decode for a sample that cannot be
loaded (missing file, corrupt data, unsupported format). -/
inductive ImageLoadError
  | imageLoadError
deriving DecidableEq

/-- The pipeline's environment: the image filesystem, PIL's
`convert("RGB")`, the optional preprocessing transform `clip_tf`, and the
frozen batch encoder `clip_model.encode_image`. -/
structure Env (Img Emb : Type) where
  fs : String → Option Img
  convertRGB : Img → Img
  transform : Option (Img → Img)
  encode : List Img → List Emb

/-- `if self.transform: image = self.transform(image)`. -/
def applyTransform (env : Env Img Emb) (image : Img) : Img :=
  match env.transform with
  | some t => t image
  | none => image

/-- `SimulacraDataset.__getitem__` for one record: load the image at
`images_dir / filename`, convert to RGB, transform, and pair with the
record's rating. -/
def loadSample (env : Env Img Emb) (dir : String) (r : RatingRecord) :
    Except ImageLoadError (Img × ℚ) :=
  match env.fs (dir ++ "/" ++ r.path) with
  | none => .error .imageLoadError
  | some image => .ok (applyTransform env (env.convertRGB image), r.rating)

/-- Loading a list of records in order, stopping at the first failure
(the first raised exception aborts the run). -/
def loadSamples (env : Env Img Emb) (dir : String) :
    List RatingRecord → Except ImageLoadError (List (Img × ℚ))
  | [] => .ok []
  | r :: rs =>
    match loadSample env dir r with
    | .error e => .error e
    | .ok s =>
      match loadSamples env dir rs with
      | .error e => .error e
      | .ok ss => .ok (s :: ss)

/-- Loading every batch in order, stopping at the first failure. -/
def loadBatches (env : Env Img Emb) (dir : String) :
    List (List RatingRecord) → Except ImageLoadError (List (List (Img × ℚ)))
  | [] => .ok []
  | b :: bs =>
    match loadSamples env dir b with
    | .error e => .error e
    | .ok s =>
      match loadBatches env dir bs with
      | .error e => .error e
      | .ok ss => .ok (s :: ss)

/-- Core loop of the batch partition: `cur` is the current batch in
reverse order, `k` is its remaining capacity. -/
def chunksGo (bs : Nat) : List α → List α → Nat → List (List α)
  | [], cur, _ => [cur.reverse]
  | a :: l, cur, 0 => cur.reverse :: chunksGo bs l [a] (bs - 1)
  | a :: l, cur, k + 1 => chunksGo bs l (a :: cur) k

/-- The `DataLoader` batch partition: consecutive chunks of `bs` elements
in index order, the last chunk possibly shorter, no element dropped. -/
def chunks (bs : Nat) : List α → List (List α)
  | [] => []
  | a :: l => chunksGo bs l [a] (bs - 1)

/-- `torch.cat`: concatenation of a list of tensors along dim 0, raising
a `RuntimeError` when the list is empty. -/
def torch_cat : List (List α) → Option (List α)
  | [] => none
  | ls => some ls.flatten

/-- How a pipeline run can abort after the encoder is loaded. -/
inductive RunError
  | imageLoad (e : ImageLoadError)
  | emptyCat
deriving DecidableEq

/-- The serialized Output Bundle
`{"clip_model": ..., "embeds": ..., "ratings": ...}`. -/
structure Bundle (Emb : Type) where
  clip_model : String
  embeds : List Emb
  ratings : List ℚ
deriving DecidableEq

/-- The loader loop plus aggregation of `main` (lines 84-99): partition
the records into batches, load each batch, encode each image batch and
collect the rating batches, then concatenate both accumulator lists. -/
def runPipeline (env : Env Img Emb) (clipModelName dir : String)
    (records : List RatingRecord) (bs : Nat) : Except RunError (Bundle Emb) :=
  match loadBatches env dir (chunks bs records) with
  | .error e => .error (.imageLoad e)
  | .ok batches =>
    match torch_cat (batches.map fun b => env.encode (b.map Prod.fst)),
        torch_cat (batches.map fun b => b.map Prod.snd) with
    | some es, some rs => .ok ⟨clipModelName, es, rs⟩
    | _, _ => .error .emptyCat

/-- `torch.save(obj, args.output)`: the single disk write, reached only
when the pipeline completed; an aborted run writes nothing. -/
def runAndSave (env : Env Img Emb) (clipModelName dir : String)
    (records : List RatingRecord) (bs : Nat) (outputPath : String) :
    Option (String × Bundle Emb) :=
  match runPipeline env clipModelName dir records bs with
  | .ok b => some (outputPath, b)
  | .error _ => none

/-! ## Device resolution  (main, lines 69-78)

```
device = torch.device("cpu")
if args.device:
    device = torch.device(device)
else:
    if torch.backends.cuda.is_built():
        device = torch.device("cuda")
    if torch.backends.mps.is_built():
        device = torch.device("mps")
```

Devices are modelled by their name strings; `torch.device` applied to an
existing device returns that same device, so the `if args.device:` branch
re-wraps the current value `"cpu"` and never reads `args.device`.  An
argparse option that was not given is `None`; Python truthiness also
treats the empty string as false. -/

/-- Which accelerator backends this torch build reports as built. -/
structure Backends where
  cudaBuilt : Bool
  mpsBuilt : Bool
deriving DecidableEq

/-- Python truthiness of the `args.device` value (`None` or a string). -/
def argTruthy : Option String → Bool
  | none => false
  | some s => !(s == "")

/-- The device actually selected by lines 69-78. -/
def resolveDevice (argsDevice : Option String) (b : Backends) : String :=
  if argTruthy argsDevice then
    "cpu"
  else
    let device := "cpu"
    let device := if b.cudaBuilt then "cuda" else device
    let device := if b.mpsBuilt then "mps" else device
    device

/-! ## The module namespace and `main`  (whole file)

The module's import statements (lines 5-15) bind `argparse`, `os`,
`sqlite3`, `Path`, `torch`, `transforms`, `Image`, `mp`, `data`, `tqdm`;
the file's own top-level statements bind `SimulacraDataset` and `main`.
The name `clip` is bound by none of them, and `clip` is not a Python
builtin either, so evaluating the expression `clip.load(...)` on line 80
raises `NameError: name 'clip' is not defined`. -/

/-- The names bound at module level in `simulacra_compute_embeddings.py`:
the ten imported names plus the two top-level definitions. -/
def moduleNames : List String :=
  ["argparse", "os", "sqlite3", "Path", "torch", "transforms", "Image",
   "mp", "data", "tqdm", "SimulacraDataset", "main"]

/-- Resolution of a bare name inside `main`: `main` has no local binding
for `clip`, so lookup falls through to the module globals (and `clip` is
not among the builtins). -/
def resolvesName (n : String) : Bool :=
  moduleNames.contains n

/-- The parsed command-line arguments (all parse successfully: `argparse`
has already accepted them). -/
structure Args where
  batchSize : Nat
  clipModel : String
  db : String
  device : Option String
  imagesDir : String
  numWorkers : Nat
  output : String
  startMethod : String

/-- An unhandled Python exception terminating `main`. -/
inductive PyError
  | nameError (n : String)
  | readerError (e : ReaderError)
  | runError (e : RunError)
deriving DecidableEq

/-- The body of `main` after argument parsing: set the start method
(a process-global side effect with no bearing on the result), resolve the
device, evaluate `clip.load` — which requires the name `clip` to resolve —
then build the dataset (running the reader query), iterate the loader and
save the bundle. -/
def mainExec (env : Env Img Emb) (dbfs : String → DbFsEntry)
    (backends : Backends) (args : Args) :
    Except PyError (String × Bundle Emb) :=
  let _device := resolveDevice args.device backends
  if resolvesName "clip" then
    match readerRecords dbfs args.db with
    | .error e => .error (.readerError e)
    | .ok records =>
      match runPipeline env args.clipModel args.imagesDir records args.batchSize with
      | .error e => .error (.runError e)
      | .ok bundle => .ok (args.output, bundle)
  else
    .error (.nameError "clip")

/-! ## Lemmas about the batch partition -/

theorem chunksGo_eq (bs : Nat) :
    ∀ (l cur : List α) (k : Nat),
      chunksGo bs l cur k = (cur.reverse ++ l.take k) :: chunks bs (l.drop k) := by
  intro l
  induction l with
  | nil => intro cur k; simp [chunksGo, chunks]
  | cons a l ih =>
    intro cur k
    cases k with
    | zero => simp [chunksGo, chunks]
    | succ k => simp [chunksGo, ih]

theorem chunks_nil (bs : Nat) : chunks bs ([] : List α) = [] := rfl

theorem chunks_cons (bs : Nat) (a : α) (l : List α) :
    chunks bs (a :: l) = (a :: l.take (bs - 1)) :: chunks bs (l.drop (bs - 1)) := by
  show chunksGo bs l [a] (bs - 1) = _
  rw [chunksGo_eq]
  rfl

theorem chunks_induction {motive : List α → Prop} (bs : Nat) (l : List α)
    (h0 : motive []) (h1 : ∀ a l, motive (l.drop (bs - 1)) → motive (a :: l)) :
    motive l := by
  have key : ∀ (n : Nat) (l : List α), l.length ≤ n → motive l := by
    intro n
    induction n with
    | zero =>
      intro l hl
      rw [List.length_eq_zero.mp (Nat.le_zero.mp hl)]
      exact h0
    | succ n ih =>
      intro l hl
      cases l with
      | nil => exact h0
      | cons a l =>
        refine h1 a l (ih _ ?_)
        have hd : (l.drop (bs - 1)).length = l.length - (bs - 1) := List.length_drop _ _
        simp only [List.length_cons] at hl
        omega
  exact key l.length l Nat.le.refl

theorem chunks_flatten (bs : Nat) (l : List α) : (chunks bs l).flatten = l := by
  induction l using chunks_induction bs with
  | h0 => simp [chunks_nil]
  | h1 a l ih => rw [chunks_cons]; simp [ih]

theorem chunks_eq_nil_iff (bs : Nat) (l : List α) : chunks bs l = [] ↔ l = [] := by
  cases l with
  | nil => simp [chunks_nil]
  | cons a l => rw [chunks_cons]; simp

theorem mem_chunks_ne_nil_length_le (bs : Nat) (hbs : 0 < bs) (l : List α)
    (b : List α) (hb : b ∈ chunks bs l) : b ≠ [] ∧ b.length ≤ bs := by
  induction l using chunks_induction bs with
  | h0 => rw [chunks_nil] at hb; cases hb
  | h1 a l ih =>
    rw [chunks_cons] at hb
    rcases List.mem_cons.mp hb with h | h
    · subst h
      refine ⟨by simp, ?_⟩
      simp only [List.length_cons, List.length_take]
      omega
    · exact ih h

theorem mem_dropLast_chunks_length (bs : Nat) (hbs : 0 < bs) (l : List α)
    (b : List α) (hb : b ∈ (chunks bs l).dropLast) : b.length = bs := by
  induction l using chunks_induction bs with
  | h0 => rw [chunks_nil] at hb; cases hb
  | h1 a l ih =>
    rw [chunks_cons] at hb
    by_cases hrest : chunks bs (l.drop (bs - 1)) = []
    · rw [hrest] at hb
      cases hb
    · rw [List.dropLast_cons_of_ne_nil hrest] at hb
      rcases List.mem_cons.mp hb with h | h
      · subst h
        have hd : l.drop (bs - 1) ≠ [] := fun h0 => hrest (by rw [h0, chunks_nil])
        have hlen : bs - 1 ≤ l.length := by
          by_contra hlt
          exact hd (List.drop_eq_nil_of_le (Nat.le_of_lt (Nat.lt_of_not_le hlt)))
        simp only [List.length_cons, List.length_take]
        omega
      · exact ih h

/-! ## Lemmas about sample loading -/

theorem loadSamples_append (env : Env Img Emb) (dir : String)
    (l₁ l₂ : List RatingRecord) :
    loadSamples env dir (l₁ ++ l₂) =
      match loadSamples env dir l₁ with
      | .error e => .error e
      | .ok s₁ =>
        match loadSamples env dir l₂ with
        | .error e => .error e
        | .ok s₂ => .ok (s₁ ++ s₂) := by
  induction l₁ with
  | nil =>
    simp only [List.nil_append, loadSamples]
    cases loadSamples env dir l₂ <;> rfl
  | cons r rs ih =>
    show loadSamples env dir (r :: (rs ++ l₂)) = _
    simp only [loadSamples]
    rw [ih]
    cases loadSample env dir r with
    | error e => rfl
    | ok s =>
      cases loadSamples env dir rs with
      | error e => rfl
      | ok ss => cases loadSamples env dir l₂ <;> rfl

theorem loadSamples_length (env : Env Img Emb) (dir : String) :
    ∀ (l : List RatingRecord) (s : List (Img × ℚ)),
      loadSamples env dir l = .ok s → s.length = l.length := by
  intro l
  induction l with
  | nil =>
    intro s h
    simp only [loadSamples] at h
    cases h
    rfl
  | cons r rs ih =>
    intro s h
    simp only [loadSamples] at h
    cases hr : loadSample env dir r with
    | error e => rw [hr] at h; cases h
    | ok p =>
      rw [hr] at h
      cases hs : loadSamples env dir rs with
      | error e => rw [hs] at h; cases h
      | ok ss =>
        rw [hs] at h
        cases h
        simp [ih ss hs]

theorem loadSamples_getElem (env : Env Img Emb) (dir : String) :
    ∀ (l : List RatingRecord) (s : List (Img × ℚ)),
      loadSamples env dir l = .ok s →
      ∀ (i : Nat) (hi : i < l.length) (hi' : i < s.length),
        loadSample env dir l[i] = .ok s[i] := by
  intro l
  induction l with
  | nil =>
    intro s _ i hi
    exact absurd hi (by simp)
  | cons r rs ih =>
    intro s h i hi hi'
    simp only [loadSamples] at h
    cases hr : loadSample env dir r with
    | error e => rw [hr] at h; cases h
    | ok p =>
      rw [hr] at h
      cases hs : loadSamples env dir rs with
      | error e => rw [hs] at h; cases h
      | ok ss =>
        rw [hs] at h
        cases h
        cases i with
        | zero => simpa using hr
        | succ j =>
          simp only [List.getElem_cons_succ]
          exact ih ss hs j (by simpa using hi) (by simpa using hi')

theorem loadSample_ok_elim (env : Env Img Emb) (dir : String)
    (r : RatingRecord) (p : Img × ℚ) (h : loadSample env dir r = .ok p) :
    ∃ img, env.fs (dir ++ "/" ++ r.path) = some img ∧
      p = (applyTransform env (env.convertRGB img), r.rating) := by
  cases hfs : env.fs (dir ++ "/" ++ r.path) with
  | none => simp [loadSample, hfs] at h
  | some img =>
    simp only [loadSample, hfs] at h
    cases h
    exact ⟨img, rfl, rfl⟩

theorem loadSamples_error_of_mem (env : Env Img Emb) (dir : String)
    (l : List RatingRecord) (r : RatingRecord) (hr : r ∈ l)
    (he : loadSample env dir r = .error .imageLoadError) :
    loadSamples env dir l = .error .imageLoadError := by
  induction l with
  | nil => cases hr
  | cons a as ih =>
    rcases List.mem_cons.mp hr with h | h
    · subst h
      simp [loadSamples, he]
    · simp only [loadSamples]
      cases ha : loadSample env dir a with
      | error e => cases e; rfl
      | ok p => rw [ih h]

/-! ## Reducing the batched pipeline to a flat pass -/

theorem loadBatches_chunks_error (bs : Nat) (env : Env Img Emb) (dir : String) :
    ∀ (l : List RatingRecord) (e : ImageLoadError),
      loadSamples env dir l = .error e →
      loadBatches env dir (chunks bs l) = .error e := by
  intro l
  induction l using chunks_induction bs with
  | h0 =>
    intro e h
    simp only [loadSamples] at h
    cases h
  | h1 a l ih =>
    intro e h
    have hsplit : (a :: l.take (bs - 1)) ++ l.drop (bs - 1) = a :: l := by
      simp [List.take_append_drop]
    rw [chunks_cons]
    simp only [loadBatches]
    rw [← hsplit, loadSamples_append] at h
    cases hc : loadSamples env dir (a :: l.take (bs - 1)) with
    | error e' =>
      rw [hc] at h
    | ok s₁ =>
      rw [hc] at h
      cases hrest : loadSamples env dir (l.drop (bs - 1)) with
      | error e' =>
        rw [hrest] at h
        cases h
        rw [ih e' hrest]
      | ok s₂ => rw [hrest] at h; cases h

theorem loadBatches_chunks_ok (bs : Nat) (env : Env Img Emb) (dir : String) :
    ∀ (l : List RatingRecord) (s : List (Img × ℚ)),
      loadSamples env dir l = .ok s →
      ∃ bss, loadBatches env dir (chunks bs l) = .ok bss ∧
        bss.flatten = s ∧ bss.length = (chunks bs l).length := by
  intro l
  induction l using chunks_induction bs with
  | h0 =>
    intro s h
    simp only [loadSamples] at h
    cases h
    exact ⟨[], by simp [chunks_nil, loadBatches], rfl, by simp [chunks_nil]⟩
  | h1 a l ih =>
    intro s h
    have hsplit : (a :: l.take (bs - 1)) ++ l.drop (bs - 1) = a :: l := by
      simp [List.take_append_drop]
    rw [← hsplit, loadSamples_append] at h
    cases hc : loadSamples env dir (a :: l.take (bs - 1)) with
    | error e' => rw [hc] at h; cases h
    | ok s₁ =>
      rw [hc] at h
      cases hrest : loadSamples env dir (l.drop (bs - 1)) with
      | error e' => rw [hrest] at h; cases h
      | ok s₂ =>
        rw [hrest] at h
        cases h
        obtain ⟨bss, hbss, hflat, hlen⟩ := ih s₂ hrest
        refine ⟨s₁ :: bss, ?_, ?_, ?_⟩
        · rw [chunks_cons]
          simp only [loadBatches, hc, hbss]
        · simp [hflat]
        · rw [chunks_cons]
          simp [hlen]

/-- `torch.cat` on a nonempty list of tensors succeeds with their
concatenation. -/
theorem torch_cat_of_ne_nil (ls : List (List α)) (h : ls ≠ []) :
    torch_cat ls = some ls.flatten := by
  cases ls with
  | nil => exact absurd rfl h
  | cons x xs => rfl

/-- The same pipeline written as a single flat pass over the record list:
load every sample in order, and unless the record list is empty, emit the
bundle whose embeddings are the per-image encodings in record order.
`runPipeline` is proved equal to this whenever the encoder acts
independently on the rows of a batch. -/
def flatRun (env : Env Img Emb) (f : Img → Emb) (clipModelName dir : String)
    (records : List RatingRecord) : Except RunError (Bundle Emb) :=
  match loadSamples env dir records with
  | .error e => .error (.imageLoad e)
  | .ok samples =>
    if records.isEmpty then .error .emptyCat
    else .ok ⟨clipModelName, (samples.map Prod.fst).map f, samples.map Prod.snd⟩

theorem runPipeline_eq_flatRun (env : Env Img Emb) (f : Img → Emb)
    (clipModelName dir : String) (records : List RatingRecord) (bs : Nat)
    (hbs : 0 < bs) (hrow : ∀ l, env.encode l = l.map f) :
    runPipeline env clipModelName dir records bs =
      flatRun env f clipModelName dir records := by
  unfold runPipeline flatRun
  cases hls : loadSamples env dir records with
  | error e => rw [loadBatches_chunks_error bs env dir records e hls]
  | ok samples =>
    obtain ⟨bss, hbss, hflat, hlen⟩ := loadBatches_chunks_ok bs env dir records samples hls
    rw [hbss]
    dsimp only
    cases records with
    | nil =>
      have : bss = [] := by
        have h0 : bss.length = 0 := by simp [hlen, chunks_nil]
        exact List.length_eq_zero.mp h0
      subst this
      simp [torch_cat, List.map_nil]
    | cons r rs =>
      have hne : bss ≠ [] := by
        intro h0
        rw [h0] at hlen
        rw [chunks_cons] at hlen
        simp at hlen
      have hmapne1 : bss.map (fun b => env.encode (b.map Prod.fst)) ≠ [] :=
        fun h0 => hne (List.map_eq_nil_iff.mp h0)
      have hmapne2 : bss.map (fun b => b.map Prod.snd) ≠ [] :=
        fun h0 => hne (List.map_eq_nil_iff.mp h0)
      rw [torch_cat_of_ne_nil _ hmapne1, torch_cat_of_ne_nil _ hmapne2]
      have hembeds : (bss.map fun b => env.encode (b.map Prod.fst)).flatten =
          (samples.map Prod.fst).map f := by
        have : (bss.map fun b => env.encode (b.map Prod.fst)) =
            bss.map fun b => (b.map Prod.fst).map f := by
          simp only [hrow]
        rw [this, ← hflat]
        have hcomp : (bss.map fun b => (b.map Prod.fst).map f) =
            (bss.map (List.map Prod.fst)).map (List.map f) := by
          simp [List.map_map]
        rw [hcomp, ← List.map_flatten, ← List.map_flatten]
      have hratings : (bss.map fun b => b.map Prod.snd).flatten =
          samples.map Prod.snd := by
        rw [← hflat]
        have : (bss.map fun b => b.map Prod.snd) =
            bss.map (List.map Prod.snd) := rfl
        rw [this, ← List.map_flatten]
      rw [hembeds, hratings]
      simp

theorem runPipeline_ok_elim (env : Env Img Emb) (f : Img → Emb)
    (clipModelName dir : String) (records : List RatingRecord) (bs : Nat)
    (bundle : Bundle Emb) (hbs : 0 < bs) (hrow : ∀ l, env.encode l = l.map f)
    (hrun : runPipeline env clipModelName dir records bs = .ok bundle) :
    ∃ samples, loadSamples env dir records = .ok samples ∧
      bundle = ⟨clipModelName, (samples.map Prod.fst).map f, samples.map Prod.snd⟩ := by
  rw [runPipeline_eq_flatRun env f clipModelName dir records bs hbs hrow] at hrun
  unfold flatRun at hrun
  cases hls : loadSamples env dir records with
  | error e => rw [hls] at hrun; cases hrun
  | ok samples =>
    rw [hls] at hrun
    dsimp only at hrun
    by_cases hemp : records.isEmpty
    · rw [if_pos hemp] at hrun; cases hrun
    · rw [if_neg hemp] at hrun
      cases hrun
      exact ⟨samples, rfl, rfl⟩

/-! ## Example instances used by the witnesses -/

/-- A concrete pipeline environment over `Img = Emb = Nat`: every path
holds the image `5`, conversion is the identity, the transform adds one,
and the encoder doubles each image of a batch independently. -/
def exEnv : Env Nat Nat where
  fs := fun _ => some 5
  convertRGB := fun img => img
  transform := some fun img => img + 1
  encode := fun l => l.map fun img => img * 2

/-- A concrete record list with two records. -/
def exRecords : List RatingRecord :=
  [⟨1, 0, "a.png", 3⟩, ⟨2, 1, "b.png", 4⟩]

/-- Like `exEnv` but the file `imgs/b.png` is missing from disk. -/
def exEnvMissing : Env Nat Nat where
  fs := fun p => if p == "imgs/b.png" then none else some 5
  convertRGB := fun img => img
  transform := some fun img => img + 1
  encode := fun l => l.map fun img => img * 2

/-! ## Claims about the batched pipeline -/

/-- C1: for every run that completes (the pipeline returns a bundle), the
bundle's `embeds` and `ratings` have exactly `N = records.length` rows,
and for every index `i`, `ratings[i]` is record `i`'s mean rating while
`embeds[i]` is the encoding of the image loaded from record `i`'s path
(converted, transformed) — rows are never reordered between batch
formation and serialization.  The encoder is assumed to act on a batch
row-by-row (`hrow`), which is what "derived from the same source image"
presupposes. -/
theorem c1_rows_aligned (env : Env Img Emb) (f : Img → Emb)
    (clipModelName dir : String) (records : List RatingRecord) (bs : Nat)
    (bundle : Bundle Emb) (hbs : 0 < bs) (hrow : ∀ l, env.encode l = l.map f)
    (hrun : runPipeline env clipModelName dir records bs = .ok bundle) :
    bundle.embeds.length = records.length ∧
    bundle.ratings.length = records.length ∧
    ∀ (i : Nat) (hi : i < records.length),
      bundle.ratings[i]? = some records[i].rating ∧
      ∃ img, env.fs (dir ++ "/" ++ records[i].path) = some img ∧
        bundle.embeds[i]? = some (f (applyTransform env (env.convertRGB img))) := by
  obtain ⟨samples, hls, hb⟩ :=
    runPipeline_ok_elim env f clipModelName dir records bs bundle hbs hrow hrun
  subst hb
  have hlen := loadSamples_length env dir records samples hls
  refine ⟨by simp [hlen], by simp [hlen], ?_⟩
  intro i hi
  have hi' : i < samples.length := by omega
  have hget := loadSamples_getElem env dir records samples hls i hi hi'
  obtain ⟨img, hfs, hpair⟩ := loadSample_ok_elim env dir records[i] samples[i] hget
  constructor
  · show (samples.map Prod.snd)[i]? = some records[i].rating
    rw [List.getElem?_map, List.getElem?_eq_getElem hi']
    simp [hpair]
  · refine ⟨img, hfs, ?_⟩
    show ((samples.map Prod.fst).map f)[i]? = _
    rw [List.getElem?_map, List.getElem?_map, List.getElem?_eq_getElem hi']
    simp [hpair]

/-- C1 witness: a concrete two-record run through `exEnv` completes with
the aligned bundle. -/
theorem c1_witness :
    (Bundle.mk "ViT-B/16" [12, 12] ([3, 4] : List ℚ)).embeds.length = exRecords.length ∧
    (Bundle.mk "ViT-B/16" [12, 12] ([3, 4] : List ℚ)).ratings.length = exRecords.length ∧
    ∀ (i : Nat) (hi : i < exRecords.length),
      (Bundle.mk "ViT-B/16" [12, 12] ([3, 4] : List ℚ)).ratings[i]? =
        some exRecords[i].rating ∧
      ∃ img, exEnv.fs ("imgs" ++ "/" ++ exRecords[i].path) = some img ∧
        (Bundle.mk "ViT-B/16" [12, 12] ([3, 4] : List ℚ)).embeds[i]? =
          some ((fun img => img * 2) (applyTransform exEnv (exEnv.convertRGB img))) :=
  c1_rows_aligned exEnv (fun img => img * 2) "ViT-B/16" "imgs" exRecords 10
    (Bundle.mk "ViT-B/16" [12, 12] ([3, 4] : List ℚ))
    (by decide) (fun l => rfl) rfl

/-- C5 counterexample: on a store with 0 images the code does crash — the
loader yields no batches, so `torch.cat` receives an empty list and
raises; the run does not produce a zero-length bundle, nor a defined early
exit. -/
theorem c5_counterexample :
    runPipeline exEnv "ViT-B/16" "imgs" ([] : List RatingRecord) 10 =
      .error RunError.emptyCat := rfl

/-- C5 amended: for a store with 0 images, the run always aborts at the
concatenation step (`torch.cat` of the empty accumulator list raises) and
writes no output artifact. -/
theorem c5_empty_store_crashes (env : Env Img Emb)
    (clipModelName dir out : String) (bs : Nat) :
    runPipeline env clipModelName dir ([] : List RatingRecord) bs =
      .error RunError.emptyCat ∧
    runAndSave env clipModelName dir [] bs out = none := by
  have h : runPipeline env clipModelName dir ([] : List RatingRecord) bs =
      .error RunError.emptyCat := by
    unfold runPipeline
    rw [chunks_nil]
    simp [loadBatches, torch_cat]
  exact ⟨h, by simp [runAndSave, h]⟩

/-- C6: with a deterministic row-wise encoder, running the pipeline with
two different (positive) batch sizes over the same dataset gives exactly
the same result — in particular identical concatenated embeddings. -/
theorem c6_batch_size_invariance (env : Env Img Emb) (f : Img → Emb)
    (clipModelName dir : String) (records : List RatingRecord)
    (bs₁ bs₂ : Nat) (h₁ : 0 < bs₁) (h₂ : 0 < bs₂)
    (hrow : ∀ l, env.encode l = l.map f) :
    runPipeline env clipModelName dir records bs₁ =
      runPipeline env clipModelName dir records bs₂ := by
  rw [runPipeline_eq_flatRun env f clipModelName dir records bs₁ h₁ hrow,
    runPipeline_eq_flatRun env f clipModelName dir records bs₂ h₂ hrow]

/-- C6 witness: batch sizes 4 and 10 agree on the concrete example. -/
theorem c6_witness :
    runPipeline exEnv "ViT-B/16" "imgs" exRecords 4 =
      runPipeline exEnv "ViT-B/16" "imgs" exRecords 10 :=
  c6_batch_size_invariance exEnv (fun img => img * 2) "ViT-B/16" "imgs"
    exRecords 4 10 (by decide) (by decide) (fun l => rfl)

/-- C7: the batch iterator covers every index of `[0, N)` exactly once in
sequential order (its flattening is exactly `List.range N`; likewise the
flattening of the record batches is the record list itself, so sample `i`
corresponds to record `i`); every batch is nonempty with at most
`batch_size` samples, and all batches except possibly the last have
exactly `batch_size` samples. -/
theorem c7_batch_iterator (N bs : Nat) (records : List RatingRecord)
    (hbs : 0 < bs) :
    (chunks bs (List.range N)).flatten = List.range N ∧
    (chunks bs records).flatten = records ∧
    (∀ b ∈ chunks bs (List.range N), b ≠ [] ∧ b.length ≤ bs) ∧
    (∀ b ∈ (chunks bs (List.range N)).dropLast, b.length = bs) :=
  ⟨chunks_flatten bs _, chunks_flatten bs _,
    fun b hb => mem_chunks_ne_nil_length_le bs hbs _ b hb,
    fun b hb => mem_dropLast_chunks_length bs hbs _ b hb⟩

/-- C7 witness: `N = 5`, `batch_size = 2` on the concrete record list. -/
theorem c7_witness :
    (chunks 2 (List.range 5)).flatten = List.range 5 ∧
    (chunks 2 exRecords).flatten = exRecords ∧
    (∀ b ∈ chunks 2 (List.range 5), b ≠ [] ∧ b.length ≤ 2) ∧
    (∀ b ∈ (chunks 2 (List.range 5)).dropLast, b.length = 2) :=
  c7_batch_iterator 5 2 exRecords (by decide)

/-- C8: if any referenced image file is missing (or undecodable — its
entry on disk is `none`), the run aborts with the image-load error and
the final `torch.save` is never reached: no output artifact is produced. -/
theorem c8_missing_image_aborts (env : Env Img Emb)
    (clipModelName dir out : String) (records : List RatingRecord)
    (bs : Nat) (r : RatingRecord) (hbs : 0 < bs) (hr : r ∈ records)
    (hmiss : env.fs (dir ++ "/" ++ r.path) = none) :
    runPipeline env clipModelName dir records bs =
      .error (RunError.imageLoad .imageLoadError) ∧
    runAndSave env clipModelName dir records bs out = none := by
  have hload : loadSample env dir r = .error .imageLoadError := by
    simp [loadSample, hmiss]
  have hls := loadSamples_error_of_mem env dir records r hr hload
  have hrun : runPipeline env clipModelName dir records bs =
      .error (RunError.imageLoad .imageLoadError) := by
    unfold runPipeline
    rw [loadBatches_chunks_error bs env dir records _ hls]
  exact ⟨hrun, by simp [runAndSave, hrun]⟩

/-- C8 witness: removing `imgs/b.png` makes the concrete run abort with
the image-load error and produce no output. -/
theorem c8_witness :
    runPipeline exEnvMissing "ViT-B/16" "imgs" exRecords 10 =
      .error (RunError.imageLoad .imageLoadError) ∧
    runAndSave exEnvMissing "ViT-B/16" "imgs" exRecords 10 "out.pth" = none :=
  c8_missing_image_aborts exEnvMissing "ViT-B/16" "imgs" "out.pth" exRecords 10
    ⟨2, 1, "b.png", 4⟩ (by decide) (by decide) (by decide)

/-! ## Lemmas about the join, grouping and aggregation -/

theorem mem_imageJoinRows (db : Database) (i : ImageRow) (jr : JoinRow)
    (h : jr ∈ imageJoinRows db i) : jr.image = i := by
  simp only [imageJoinRows, List.mem_flatMap, List.mem_map] at h
  obtain ⟨g, _, r, _, p, _, rfl⟩ := h
  rfl

theorem sum_map_const_nat (l : List α) (c : Nat) :
    (l.map fun _ => c).sum = l.length * c := by
  induction l with
  | nil => simp
  | cons a l ih => simp [ih, Nat.succ_mul, Nat.add_comm]

theorem sum_map_const_rat (l : List α) (c : ℚ) :
    (l.map fun _ => c).sum = (l.length : ℚ) * c := by
  induction l with
  | nil => simp
  | cons a l ih =>
    simp only [List.map_cons, List.sum_cons, ih, List.length_cons]
    push_cast
    ring

theorem sum_flatMap_rat (l : List α) (f : α → List ℚ) :
    (l.flatMap f).sum = (l.map fun x => (f x).sum).sum := by
  induction l with
  | nil => simp
  | cons a l ih => simp [List.flatMap_cons, List.sum_append, ih]

theorem triple_length (G : List GenerationRow) (R : List RatingRow)
    (P : List PathRow) (i : ImageRow) :
    (G.flatMap fun g => R.flatMap fun r =>
      P.map fun p => (⟨i, g, r, p⟩ : JoinRow)).length =
      G.length * (R.length * P.length) := by
  rw [List.length_flatMap]
  simp only [Function.comp_def]
  have h1 : ∀ g : GenerationRow,
      (R.flatMap fun r => P.map fun p => (⟨i, g, r, p⟩ : JoinRow)).length =
        R.length * P.length := by
    intro g
    rw [List.length_flatMap]
    simp only [Function.comp_def]
    have h2 : ∀ r : RatingRow,
        (P.map fun p => (⟨i, g, r, p⟩ : JoinRow)).length = P.length :=
      fun r => List.length_map _ _
    rw [List.map_congr_left fun r _ => h2 r, sum_map_const_nat]
  rw [List.map_congr_left fun g _ => h1 g, sum_map_const_nat]

theorem triple_sum (G : List GenerationRow) (R : List RatingRow)
    (P : List PathRow) (i : ImageRow) :
    ((G.flatMap fun g => R.flatMap fun r =>
      P.map fun p => (⟨i, g, r, p⟩ : JoinRow)).map fun jr =>
        jr.ratingRow.rating).sum =
      (G.length : ℚ) * ((P.length : ℚ) * (R.map RatingRow.rating).sum) := by
  rw [List.map_flatMap, sum_flatMap_rat]
  have h1 : ∀ g : GenerationRow,
      (((R.flatMap fun r => P.map fun p => (⟨i, g, r, p⟩ : JoinRow)).map
        fun jr => jr.ratingRow.rating)).sum =
        (P.length : ℚ) * (R.map RatingRow.rating).sum := by
    intro g
    rw [List.map_flatMap, sum_flatMap_rat]
    have h2 : ∀ r : RatingRow,
        ((P.map fun p => (⟨i, g, r, p⟩ : JoinRow)).map
          fun jr => jr.ratingRow.rating).sum = (P.length : ℚ) * r.rating := by
      intro r
      rw [List.map_map]
      exact sum_map_const_rat P r.rating
    rw [List.map_congr_left fun r _ => h2 r]
    have h3 : (R.map fun r => (P.length : ℚ) * r.rating) =
        R.map fun r => (P.length : ℚ) * RatingRow.rating r := rfl
    rw [h3, List.sum_map_mul_left]
  rw [List.map_congr_left fun g _ => h1 g, sum_map_const_rat]

theorem imageJoinRows_length (db : Database) (i : ImageRow) :
    (imageJoinRows db i).length =
      (imageGens db i).length *
        ((imageRatings db i).length * (imagePaths db i).length) :=
  triple_length _ _ _ _

theorem imageJoinRows_components_ne_nil (db : Database) (i : ImageRow)
    (h : imageJoinRows db i ≠ []) :
    imageGens db i ≠ [] ∧ imageRatings db i ≠ [] ∧ imagePaths db i ≠ [] := by
  have h0 : (imageJoinRows db i).length ≠ 0 :=
    fun hz => h (List.length_eq_zero.mp hz)
  rw [imageJoinRows_length] at h0
  refine ⟨fun hg => ?_, fun hr => ?_, fun hp => ?_⟩
  · rw [hg] at h0; simp at h0
  · rw [hr] at h0; simp at h0
  · rw [hp] at h0; simp at h0

theorem imageJoinRows_ne_nil (db : Database) (i : ImageRow)
    (hg : imageGens db i ≠ []) (hr : imageRatings db i ≠ [])
    (hp : imagePaths db i ≠ []) : imageJoinRows db i ≠ [] := by
  intro h
  have h0 : (imageJoinRows db i).length = 0 := by rw [h]; rfl
  rw [imageJoinRows_length] at h0
  have hg0 : (imageGens db i).length ≠ 0 :=
    fun hz => hg (List.length_eq_zero.mp hz)
  have hr0 : (imageRatings db i).length ≠ 0 :=
    fun hz => hr (List.length_eq_zero.mp hz)
  have hp0 : (imagePaths db i).length ≠ 0 :=
    fun hz => hp (List.length_eq_zero.mp hz)
  exact Nat.mul_ne_zero hg0 (Nat.mul_ne_zero hr0 hp0) h0

theorem imageJoinRows_eq_nil_of (db : Database) (i : ImageRow)
    (h : imageRatings db i = [] ∨ imagePaths db i = []) :
    imageJoinRows db i = [] := by
  apply List.length_eq_zero.mp
  rw [imageJoinRows_length]
  rcases h with h | h <;> rw [h] <;> simp

theorem imageJoinRows_map_key (db : Database) (i : ImageRow) :
    (imageJoinRows db i).map (fun jr => jr.image.id) =
      List.replicate (imageJoinRows db i).length i.id := by
  rw [List.eq_replicate_iff]
  refine ⟨by simp, ?_⟩
  intro b hb
  simp only [List.mem_map] at hb
  obtain ⟨jr, hjr, rfl⟩ := hb
  rw [mem_imageJoinRows db i jr hjr]

theorem dedupFirst_cons (a : Int) (l : List Int) :
    dedupFirst (a :: l) = a :: (dedupFirst l).filter fun b => decide (b ≠ a) :=
  rfl

theorem mem_dedupFirst (x : Int) : ∀ l : List Int, x ∈ dedupFirst l → x ∈ l := by
  intro l
  induction l with
  | nil => intro h; cases h
  | cons a l ih =>
    intro h
    rw [dedupFirst_cons] at h
    rcases List.mem_cons.mp h with h | h
    · simp [h]
    · exact List.mem_cons_of_mem a (ih (List.mem_filter.mp h).1)

theorem dedupFirst_replicate_append (a : Int) (l : List Int) :
    ∀ n : Nat, 0 < n → dedupFirst (List.replicate n a ++ l) =
      a :: (dedupFirst l).filter fun b => decide (b ≠ a) := by
  intro n
  induction n with
  | zero => intro h; exact absurd h (by omega)
  | succ m ih =>
    intro _
    cases m with
    | zero => simp [dedupFirst_cons]
    | succ k =>
      rw [List.replicate_succ, List.cons_append, dedupFirst_cons,
        ih (Nat.succ_pos k)]
      rw [List.filter_cons]
      simp [List.filter_filter]

theorem dedupFirst_flatMap (key : ImageRow → Int) (f : ImageRow → List Int) :
    ∀ imgs : List ImageRow, (imgs.map key).Nodup →
      (∀ i ∈ imgs, f i = List.replicate (f i).length (key i)) →
      (∀ i ∈ imgs, f i ≠ []) →
      dedupFirst (imgs.flatMap f) = imgs.map key := by
  intro imgs
  induction imgs with
  | nil => intro _ _ _; rfl
  | cons i rest ih =>
    intro hnodup hrep hne
    rw [List.map_cons] at hnodup
    obtain ⟨hnotmem, hnd⟩ := List.nodup_cons.mp hnodup
    have hpos : 0 < (f i).length := by
      have := hne i (by simp)
      cases hfi : f i with
      | nil => exact absurd hfi this
      | cons x xs => simp [hfi]
    rw [List.flatMap_cons, hrep i (by simp),
      dedupFirst_replicate_append _ _ _ hpos,
      ih hnd (fun j hj => hrep j (List.mem_cons_of_mem _ hj))
        (fun j hj => hne j (List.mem_cons_of_mem _ hj))]
    congr 1
    rw [List.filter_eq_self]
    intro b hb
    simp only [decide_eq_true_eq]
    intro heq
    exact hnotmem (heq ▸ hb)

theorem queryKeys_eq (db : Database)
    (hnodup : (db.images.map ImageRow.id).Nodup)
    (hval : ∀ i ∈ db.images, imageGens db i ≠ [] ∧
      imageRatings db i ≠ [] ∧ imagePaths db i ≠ []) :
    queryKeys db = db.images.map ImageRow.id := by
  unfold queryKeys joinedRows
  rw [List.map_flatMap]
  apply dedupFirst_flatMap ImageRow.id
    (fun i => (imageJoinRows db i).map fun jr => jr.image.id) db.images hnodup
  · intro i _
    rw [imageJoinRows_map_key, List.length_replicate]
  · intro i hi
    obtain ⟨hg, hr, hp⟩ := hval i hi
    intro h0
    exact imageJoinRows_ne_nil db i hg hr hp (List.map_eq_nil_iff.mp h0)

theorem filter_flatMap_key (db : Database) (i : ImageRow) :
    ∀ imgs : List ImageRow, (imgs.map ImageRow.id).Nodup → i ∈ imgs →
      (imgs.flatMap fun j => (imageJoinRows db j).filter fun jr =>
        decide (jr.image.id = i.id)) = imageJoinRows db i := by
  intro imgs
  induction imgs with
  | nil => intro _ h; cases h
  | cons j rest ih =>
    intro hnodup hmem
    rw [List.map_cons] at hnodup
    obtain ⟨hnotmem, hnd⟩ := List.nodup_cons.mp hnodup
    rw [List.flatMap_cons]
    rcases List.mem_cons.mp hmem with rfl | hmem'
    · have h1 : (imageJoinRows db i).filter
          (fun jr => decide (jr.image.id = i.id)) = imageJoinRows db i := by
        rw [List.filter_eq_self]
        intro jr hjr
        simp [mem_imageJoinRows db i jr hjr]
      have h2 : (rest.flatMap fun j => (imageJoinRows db j).filter fun jr =>
          decide (jr.image.id = i.id)) = [] := by
        rw [List.flatMap_eq_nil_iff]
        intro j' hj'
        rw [List.filter_eq_nil_iff]
        intro jr hjr
        rw [mem_imageJoinRows db j' jr hjr]
        simp only [decide_eq_true_eq]
        intro heq
        exact hnotmem (heq ▸ List.mem_map_of_mem ImageRow.id hj')
      rw [h1, h2, List.append_nil]
    · have hj : (imageJoinRows db j).filter
          (fun jr => decide (jr.image.id = i.id)) = [] := by
        rw [List.filter_eq_nil_iff]
        intro jr hjr
        rw [mem_imageJoinRows db j jr hjr]
        simp only [decide_eq_true_eq]
        intro heq
        exact hnotmem (heq ▸ List.mem_map_of_mem ImageRow.id hmem')
      rw [hj, List.nil_append]
      exact ih hnd hmem'

theorem groupRows_eq (db : Database) (i : ImageRow)
    (hnodup : (db.images.map ImageRow.id).Nodup) (hi : i ∈ db.images) :
    groupRows db i.id = imageJoinRows db i := by
  unfold groupRows joinedRows
  rw [List.filter_flatMap]
  exact filter_flatMap_key db i db.images hnodup hi

theorem imageJoin_mean (db : Database) (i : ImageRow)
    (hg : imageGens db i ≠ []) (hp : imagePaths db i ≠ []) :
    sqlAvg ((imageJoinRows db i).map fun jr => jr.ratingRow.rating) =
      ratingMean (imageRatings db i) := by
  unfold sqlAvg ratingMean
  have hsum := triple_sum (imageGens db i) (imageRatings db i) (imagePaths db i) i
  have hlen := triple_length (imageGens db i) (imageRatings db i) (imagePaths db i) i
  unfold imageJoinRows
  rw [List.length_map, hsum, hlen]
  have hg0 : ((imageGens db i).length : ℚ) ≠ 0 := by
    have : (imageGens db i).length ≠ 0 :=
      fun hz => hg (List.length_eq_zero.mp hz)
    exact_mod_cast this
  have hp0 : ((imagePaths db i).length : ℚ) ≠ 0 := by
    have : (imagePaths db i).length ≠ 0 :=
      fun hz => hp (List.length_eq_zero.mp hz)
    exact_mod_cast this
  push_cast
  rw [show ((imageGens db i).length : ℚ) * (((imagePaths db i).length : ℚ) *
      ((imageRatings db i).map RatingRow.rating).sum) =
      (((imageGens db i).length : ℚ) * ((imagePaths db i).length : ℚ)) *
        ((imageRatings db i).map RatingRow.rating).sum by ring]
  rw [show ((imageGens db i).length : ℚ) * (((imageRatings db i).length : ℚ) *
      ((imagePaths db i).length : ℚ)) =
      (((imageGens db i).length : ℚ) * ((imagePaths db i).length : ℚ)) *
        ((imageRatings db i).length : ℚ) by ring]
  exact mul_div_mul_left _ _ (mul_ne_zero hg0 hp0)

/-! ## Claims about the Rating Store Reader -/

/-- C2: for a valid store — distinct image identifiers, and every image
matched by at least one generation, one rating and one path row — the
query returns exactly `N` records, one per image in table order, and each
record's rating equals the arithmetic mean of that image's rating rows.
(The mean survives the join even when an image has several matching
generation or path rows, because the cross product replicates every
rating the same number of times.) -/
theorem c2_reader_mean (db : Database)
    (hnodup : (db.images.map ImageRow.id).Nodup)
    (hval : ∀ i ∈ db.images, imageGens db i ≠ [] ∧
      imageRatings db i ≠ [] ∧ imagePaths db i ≠ []) :
    (queryResult db).length = db.images.length ∧
    (queryResult db).map RatingRecord.rating =
      db.images.map fun i => ratingMean (imageRatings db i) := by
  have hkeys : queryKeys db = db.images.map ImageRow.id :=
    queryKeys_eq db hnodup hval
  constructor
  · unfold queryResult
    rw [List.length_map, hkeys, List.length_map]
  · unfold queryResult
    rw [List.map_map, hkeys, List.map_map]
    apply List.map_congr_left
    intro i hi
    show sqlAvg ((groupRows db i.id).map fun jr => jr.ratingRow.rating) =
      ratingMean (imageRatings db i)
    rw [groupRows_eq db i hnodup hi]
    exact imageJoin_mean db i (hval i hi).1 (hval i hi).2.2

/-- A concrete store: one generation (id 10), two images (ids 7 and 8);
image 7 has ratings 2 and 4 (mean 3), image 8 has rating 5; each image
has one path. -/
def exDb : Database where
  generations := [⟨10⟩]
  images := [⟨7, 10, 0⟩, ⟨8, 10, 1⟩]
  ratings := [⟨7, 2⟩, ⟨7, 4⟩, ⟨8, 5⟩]
  paths := [⟨7, "a.png"⟩, ⟨8, "b.png"⟩]

/-- A store in which image 9 has a path but no rating rows. -/
def exDbPartial : Database where
  generations := [⟨10⟩]
  images := [⟨7, 10, 0⟩, ⟨9, 10, 2⟩]
  ratings := [⟨7, 2⟩]
  paths := [⟨7, "a.png"⟩, ⟨9, "c.png"⟩]

/-- C2 witness: the hand-constructed store (image 7 has ratings `[2, 4]`)
satisfies the validity hypotheses, so the reader returns one record per
image with the arithmetic means. -/
theorem c2_witness :
    (queryResult exDb).length = exDb.images.length ∧
    (queryResult exDb).map RatingRecord.rating =
      exDb.images.map fun i => ratingMean (imageRatings exDb i) :=
  c2_reader_mean exDb (by decide) (by decide)

/-- C10: a group key appears in the query result only if some image row
with that identifier has at least one matching generation, rating and
path row (inner joins); an image lacking rating rows or path rows
contributes no join row at all (so no record derives from it); and every
group underlying a returned record is nonempty, so its `AVG` aggregates a
nonempty value list and is never the SQL `NULL` of an empty group. -/
theorem c10_inner_join_omission (db : Database) :
    (∀ k ∈ queryKeys db, ∃ i ∈ db.images, i.id = k ∧
      imageGens db i ≠ [] ∧ imageRatings db i ≠ [] ∧ imagePaths db i ≠ []) ∧
    (∀ i ∈ db.images, (imageRatings db i = [] ∨ imagePaths db i = []) →
      ∀ jr ∈ joinedRows db, jr.image ≠ i) ∧
    (∀ k ∈ queryKeys db, groupRows db k ≠ []) := by
  refine ⟨?_, ?_, ?_⟩
  · intro k hk
    have hk' : k ∈ (joinedRows db).map fun jr => jr.image.id :=
      mem_dedupFirst k _ hk
    simp only [List.mem_map] at hk'
    obtain ⟨jr, hjr, rfl⟩ := hk'
    simp only [joinedRows, List.mem_flatMap] at hjr
    obtain ⟨i, hi, hjr'⟩ := hjr
    have himg := mem_imageJoinRows db i jr hjr'
    have hne : imageJoinRows db i ≠ [] :=
      fun h0 => absurd (h0 ▸ hjr') (List.not_mem_nil jr)
    obtain ⟨hg, hr, hp⟩ := imageJoinRows_components_ne_nil db i hne
    exact ⟨i, hi, by rw [himg], hg, hr, hp⟩
  · intro i hi hRP jr hjr hji
    have hnil := imageJoinRows_eq_nil_of db i hRP
    simp only [joinedRows, List.mem_flatMap] at hjr
    obtain ⟨j, _, hjr'⟩ := hjr
    have hj_eq : j = i := by
      rw [← mem_imageJoinRows db j jr hjr', hji]
    rw [hj_eq, hnil] at hjr'
    exact (List.not_mem_nil jr) hjr'
  · intro k hk
    have hk' : k ∈ (joinedRows db).map fun jr => jr.image.id :=
      mem_dedupFirst k _ hk
    simp only [List.mem_map] at hk'
    obtain ⟨jr, hjr, rfl⟩ := hk'
    intro h0
    have hmem : jr ∈ groupRows db jr.image.id := by
      unfold groupRows
      rw [List.mem_filter]
      exact ⟨hjr, by simp⟩
    rw [h0] at hmem
    exact (List.not_mem_nil jr) hmem

/-- C10 witness: key 7 of the concrete store traces back to image 7 with
nonempty matches and a nonempty group, while image 9 of the partial store
(no rating rows) contributes no join row. -/
theorem c10_witness :
    (∃ i ∈ exDb.images, i.id = 7 ∧ imageGens exDb i ≠ [] ∧
      imageRatings exDb i ≠ [] ∧ imagePaths exDb i ≠ []) ∧
    (∀ jr ∈ joinedRows exDbPartial, jr.image ≠ ⟨9, 10, 2⟩) ∧
    groupRows exDb 7 ≠ [] :=
  ⟨(c10_inner_join_omission exDb).1 7 (by decide),
   (c10_inner_join_omission exDbPartial).2.1 ⟨9, 10, 2⟩ (by decide) (by decide),
   (c10_inner_join_omission exDb).2.2 7 (by decide)⟩

/-! ## Claims about `main`'s control flow and configuration -/

/-- C3: the module never binds the name `clip` (it is neither imported on
lines 5-15 nor defined), so every invocation that parses its arguments and
resolves a device fails at the `clip.load` step with
`NameError: name 'clip' is not defined`; no invocation reaches the dataset
query or the loader loop, and none produces an output artifact. -/
theorem c3_clip_name_error (env : Env Img Emb) (dbfs : String → DbFsEntry)
    (backends : Backends) (args : Args) :
    mainExec env dbfs backends args = .error (.nameError "clip") ∧
    ∀ out, mainExec env dbfs backends args ≠ .ok out := by
  have h : mainExec env dbfs backends args = .error (.nameError "clip") := by
    unfold mainExec
    have hclip : resolvesName "clip" = false := by decide
    rw [hclip]
    simp
  exact ⟨h, fun out hok => by rw [h] at hok; cases hok⟩

/-- C3 witness: a concrete invocation with default options also fails
with the `NameError` and yields no output. -/
theorem c3_witness :
    mainExec exEnv (fun _ => DbFsEntry.absent) ⟨true, false⟩
      ⟨10, "ViT-B/16", "sac.sqlite", none, "imgs", 8, "out.pth", "spawn"⟩ =
      .error (.nameError "clip") ∧
    ∀ out, mainExec exEnv (fun _ => DbFsEntry.absent) ⟨true, false⟩
      ⟨10, "ViT-B/16", "sac.sqlite", none, "imgs", 8, "out.pth", "spawn"⟩ ≠
        .ok out :=
  c3_clip_name_error exEnv (fun _ => DbFsEntry.absent) ⟨true, false⟩
    ⟨10, "ViT-B/16", "sac.sqlite", none, "imgs", 8, "out.pth", "spawn"⟩

/-- C4 (code bug, lines 69-78): when `--device` is supplied the code runs
`device = torch.device(device)` — re-wrapping the current value `"cpu"`
instead of reading `args.device` — so the device actually used is always
`"cpu"`, not the named device; auto-detection runs only when the flag is
absent.  We evaluate the model at the failing inputs. -/
theorem c4_device_flag_ignored :
    resolveDevice (some "cuda") ⟨true, false⟩ = "cpu" ∧
    resolveDevice (some "cuda") ⟨false, true⟩ = "cpu" ∧
    resolveDevice (some "mps") ⟨false, true⟩ = "cpu" ∧
    resolveDevice none ⟨true, false⟩ = "cuda" ∧
    "cpu" ≠ "cuda" :=
  ⟨rfl, rfl, rfl, rfl, by decide⟩

/-- C9 counterexample: when the `--db` location holds no database at all,
`sqlite3.connect` (default read-write-create mode) silently creates an
empty database instead of failing, and the reader's query then fails with
the no-such-table schema error — not with `StoreUnavailable` as the claim
states for a nonexistent database location. -/
theorem c9_counterexample :
    readerRecords (fun _ => DbFsEntry.absent) "sac.sqlite" =
      .error (.schemaError "images") ∧
    ReaderError.schemaError "images" ≠ ReaderError.storeUnavailable :=
  ⟨rfl, by decide⟩

/-- C9 amended: the connection is opened in SQLite's default
read-write-create mode (not read-only); a nonexistent database location is
created as an empty database, so the run fails with the no-such-table
`SchemaError`, never with `StoreUnavailable`; the failure aborts the run
immediately with no retries. -/
theorem c9_missing_db_is_schema_error (dbfs : String → DbFsEntry)
    (loc : String) (habs : dbfs loc = .absent) :
    readerRecords dbfs loc = .error (.schemaError "images") ∧
    readerRecords dbfs loc ≠ .error .storeUnavailable := by
  have h : readerRecords dbfs loc = .error (.schemaError "images") := by
    unfold readerRecords sqlite3_connect
    rw [habs]
    rfl
  refine ⟨h, ?_⟩
  rw [h]
  simp

/-- C9 witness: a concrete filesystem with no database at the given
location. -/
theorem c9_witness :
    readerRecords (fun _ => DbFsEntry.absent) "db.sqlite" =
      .error (.schemaError "images") ∧
    readerRecords (fun _ => DbFsEntry.absent) "db.sqlite" ≠
      .error .storeUnavailable :=
  c9_missing_db_is_schema_error (fun _ => DbFsEntry.absent) "db.sqlite" rfl

end Simulacra
